import Mathlib

/-!
Shallow embedding of the content-addressable file index of the
photo-toolkit repository (src/core/indexer/), together with proofs of the
spec's testable properties.

Conventions of the embedding:
* An absolute filesystem path is its list of components below the root
  (`Path("/work/a.jpg")` is `["work", "a.jpg"]`).  `pathlib` operations
  used by the source (`parent`, `relative_to`, `resolve`) act lexically on
  components; the filesystem is taken symlink-free, so `Path.resolve`
  is normalization of `.` and `..` components.
* The DBM backing store is an association list from digest strings to
  relative-path strings with unique keys; `dbm` exposes some native
  enumeration order, which the model fixes as list order.
* Python exceptions become `Except PTError`; mutating operations return
  the post-state alongside the result so that "storage unmodified on
  failure" is expressible.
* The hasher held by an indexer is abstracted as a total function from a
  file path to its digest string (`Hasher.calculate` composed with the
  ambient filesystem).
-/

set_option autoImplicit false

namespace PhotoToolkit

/-- Errors raised by the indexer code: Python `ValueError` / `RuntimeError`
with their message. -/
inductive PTError where
  | valueError (msg : String)
  | runtimeError (msg : String)
  deriving DecidableEq, Repr

/-- An absolute path, as its list of components below the filesystem root. -/
abbrev AbsPath := List String

/-- `str(Path(*comps))` for a relative path: components joined by `/`;
the empty relative path prints as `"."`. -/
def pathStr (comps : List String) : String :=
  if comps.isEmpty then "." else String.intercalate "/" comps

/-- `Path(p).relative_to(base)`: pathlib checks lexically that `base`'s
components are a leading segment of `p`'s and drops them; otherwise it
raises `ValueError`. -/
def relativeTo (p base : AbsPath) : Option (List String) :=
  if base.isPrefixOf p then some (p.drop base.length) else none

/-- `Path(p).resolve()` on a symlink-free filesystem: lexical
normalization of `.` and `..` components (`..` at the root stays at the
root, as in POSIX). -/
def resolveComps (comps : AbsPath) : AbsPath :=
  comps.foldl (fun acc c => if c = ".." then acc.dropLast else if c = "." then acc else acc ++ [c]) []

/-! ### The DBM store

`dbm.open(path, 'c')` yields a string-keyed mutable map.  We model its
contents as an association list with unique keys in the backend's native
enumeration order. -/

/-- Contents of an open DBM database: `(digest, relativePath)` entries in
the backend's enumeration order. -/
abbrev Store := List (String × String)

/-- `db[key]` wrapped in `try/except KeyError`: the stored value or `none`. -/
def storeLookup : Store → String → Option String
  | [], _ => none
  | (k, v) :: rest, key => if k = key then some v else storeLookup rest key

/-- `key in db`. -/
def storeMem (db : Store) (key : String) : Bool :=
  (storeLookup db key).isSome

/-- `del db[key]` (assuming the key is present; on an absent key the store
is returned unchanged, the caller handles `KeyError` separately). -/
def storeDel : Store → String → Store
  | [], _ => []
  | (k, v) :: rest, key => if k = key then storeDel rest key else (k, v) :: storeDel rest key

/-- `db[key] = v`: dbm replaces any existing entry for `key`; its
enumeration order is native to the backend and unspecified, the model
places the written entry last. -/
def storeSet (db : Store) (key v : String) : Store :=
  storeDel db key ++ [(key, v)]

/-! ### DBMIndexer (src/core/indexer/dbm_indexer.py) -/

/-- State of a `DBMIndexer`: the database file path, the hasher
(abstracted as path ↦ digest), and the open database contents
(`none` when `self._db is None`). -/
structure DBMIndexer where
  db_path : AbsPath
  hasher : AbsPath → String
  db : Option Store

namespace DBMIndexer

/-- `self._base_dir = str(Path(db_path).parent)`, computed at `__init__`. -/
def base_dir (idx : DBMIndexer) : AbsPath :=
  idx.db_path.dropLast

/-- `DBMIndexer._get_relative_path`: `str(Path(file_path).relative_to(self._base_dir))`.
Purely lexical — this override does NOT call `resolve()`. -/
def get_relative_path (idx : DBMIndexer) (file_path : AbsPath) : Except PTError String :=
  match relativeTo file_path idx.base_dir with
  | some rel => .ok (pathStr rel)
  | none => .error (.valueError (pathStr file_path ++ " is not in the subpath of " ++ pathStr idx.base_dir))

/-- `DBMIndexer._add_with_hash`: computes the relative path then writes
`db[file_hash] = relative_path`.  (Only called with the database open; a
`None` database would fail, modelled as a runtime error.) -/
def add_with_hash (idx : DBMIndexer) (file_path : AbsPath) (file_hash : String) :
    Except PTError DBMIndexer :=
  match idx.db with
  | none => .error (.runtimeError "Database not opened")
  | some db =>
    match idx.get_relative_path file_path with
    | .error e => .error e
    | .ok rel => .ok { idx with db := some (storeSet db file_hash rel) }

/-- `DBMIndexer.add`: unconditionally records the mapping, computing the
digest when not supplied.  Returns the digest and the post-state. -/
def add (idx : DBMIndexer) (file_path : AbsPath) (file_hash : Option String) :
    Except PTError String × DBMIndexer :=
  match idx.db with
  | none => (.error (.runtimeError "Database not opened"), idx)
  | some _ =>
    let fh := file_hash.getD (idx.hasher file_path)
    match idx.add_with_hash file_path fh with
    | .error e => (.error e, idx)
    | .ok idx' => (.ok fh, idx')

/-- `DBMIndexer._get_hash`: returns `file_hash` when supplied (even when
`file_path` is also supplied); otherwise hashes `file_path`; raises
`ValueError` when neither is supplied. -/
def get_hash (idx : DBMIndexer) (file_path : Option AbsPath) (file_hash : Option String) :
    Except PTError String :=
  match file_hash with
  | some fh => .ok fh
  | none =>
    match file_path with
    | none => .error (.valueError "Either file_path or file_hash must be provided")
    | some p => .ok (idx.hasher p)

/-- `DBMIndexer.get`: relative path for the key, `none` on a miss. -/
def get (idx : DBMIndexer) (file_path : Option AbsPath) (file_hash : Option String) :
    Except PTError (Option String) :=
  match idx.db with
  | none => .error (.runtimeError "Database not opened")
  | some db =>
    match idx.get_hash file_path file_hash with
    | .error e => .error e
    | .ok fh => .ok (storeLookup db fh)

/-- `DBMIndexer.exists`: membership test for the key. -/
def existsEntry (idx : DBMIndexer) (file_path : Option AbsPath) (file_hash : Option String) :
    Except PTError Bool :=
  match idx.db with
  | none => .error (.runtimeError "Database not opened")
  | some db =>
    match idx.get_hash file_path file_hash with
    | .error e => .error e
    | .ok fh => .ok (storeMem db fh)

/-- `DBMIndexer.remove`: deletes the entry and returns its digest, or
returns `none` when absent.  Returns the post-state alongside. -/
def remove (idx : DBMIndexer) (file_path : Option AbsPath) (file_hash : Option String) :
    Except PTError (Option String) × DBMIndexer :=
  match idx.db with
  | none => (.error (.runtimeError "Database not opened"), idx)
  | some db =>
    match idx.get_hash file_path file_hash with
    | .error e => (.error e, idx)
    | .ok fh =>
      if storeMem db fh then (.ok (some fh), { idx with db := some (storeDel db fh) })
      else (.ok none, idx)

/-- `DBMIndexer.add_if_absent`: computes the digest when not supplied,
returns `(False, digest)` when the digest is already stored, otherwise
records the mapping and returns `(True, digest)`. -/
def add_if_absent (idx : DBMIndexer) (file_path : AbsPath) (file_hash : Option String) :
    Except PTError (Bool × String) × DBMIndexer :=
  match idx.db with
  | none => (.error (.runtimeError "Database not opened"), idx)
  | some db =>
    let fh := file_hash.getD (idx.hasher file_path)
    if storeMem db fh then (.ok (false, fh), idx)
    else
      match idx.add_with_hash file_path fh with
      | .error e => (.error e, idx)
      | .ok idx' => (.ok (true, fh), idx')

/-- The accumulator loop of `DBMIndexer.list`: appends each `(k, v)` and,
when a limit is given, stops as soon as the accumulated length reaches it
(the length test runs after the append). -/
def listAux (db : Store) (n : Option Nat) (acc : List (String × String)) :
    List (String × String) :=
  match db with
  | [] => acc
  | kv :: rest =>
    let acc' := acc ++ [kv]
    match n with
    | some m => if acc'.length ≥ m then acc' else listAux rest (some m) acc'
    | none => listAux rest none acc'

/-- `DBMIndexer.list`: guarded by `if not self._db` — a dbm handle exposes
`__len__`, so an open database with zero keys is falsy and raises the
"not open" error exactly like a closed one. -/
def list (idx : DBMIndexer) (n : Option Nat) :
    Except PTError (List (String × String)) :=
  match idx.db with
  | none => .error (.runtimeError "Database is not open")
  | some db =>
    if db.isEmpty then .error (.runtimeError "Database is not open")
    else .ok (listAux db n [])

end DBMIndexer

/-! ### BaseIndexer (src/core/indexer/base_indexer.py) -/

/-- `BaseIndexer._get_relative_path`:
`str(Path(file_path).resolve().relative_to(Path(self.db_path).parent.resolve()))`.
Unlike the DBM override, this one resolves both sides first. -/
def BaseIndexer.get_relative_path (db_path : AbsPath) (file_path : AbsPath) :
    Except PTError String :=
  match relativeTo (resolveComps file_path) (resolveComps db_path.dropLast) with
  | some rel => .ok (pathStr rel)
  | none => .error (.valueError (pathStr file_path ++ " is not in the subpath of " ++ pathStr db_path.dropLast))

/-- `HashLibHasher.ALGORITHMS`: the closed set of supported algorithm
identifiers. -/
def ALGORITHMS : List String := ["md5", "sha1", "sha256", "sha512"]

/-- Python `s.split(sep, 1)` on character lists: the part before the first
occurrence of `sep` and the remainder after it, or `none` when `sep` does
not occur. -/
def splitFirst (sep : List Char) : List Char → Option (List Char × List Char)
  | [] => none
  | c :: rest =>
    if sep.isPrefixOf (c :: rest) then some ([], (c :: rest).drop sep.length)
    else
      match splitFirst sep rest with
      | some (pre, post) => some (c :: pre, post)
      | none => none

/-- `BaseIndexer.parse_uri`: splits on the first `"://"` (its absence, like
any other failure inside, surfaces as `ValueError("Invalid URI format: ...")`),
requires both parts nonempty, splits the scheme part on the first `"+"`
with the hash algorithm defaulting to `"sha256"`. -/
def parse_uri (uri : String) : Except PTError (String × String × String) :=
  match splitFirst "://".data uri.data with
  | none => .error (.valueError ("Invalid URI format: " ++ uri))
  | some (scheme_part, filename) =>
    if scheme_part = [] ∨ filename = [] then
      .error (.valueError ("Invalid URI format: " ++ uri))
    else
      match splitFirst ['+'] scheme_part with
      | some (scheme, alg) => .ok (String.mk scheme, String.mk filename, String.mk alg)
      | none => .ok (String.mk scheme_part, String.mk filename, "sha256")

/-- The indexer instance data produced by `BaseIndexer.create`: the chosen
scheme, the joined backing-file path, and the digest algorithm. -/
structure CreatedIndexer where
  scheme : String
  db_path : String
  algorithm : String
  deriving DecidableEq, Repr

/-- The module-level registration performed at import time:
`BaseIndexer.register('dbm', DBMIndexer)`. -/
def registeredSchemes : List String := ["dbm"]

/-- `BaseIndexer.create`: parses the URI, rejects an unregistered scheme
(message names the scheme only), rejects a filename containing a path
separator, constructs the hasher (`HashLibHasher.__init__` rejects an
unknown algorithm, with an enumerating message), and finally builds the
indexer over `work_dir / filename`. -/
def BaseIndexer.create (registry : List String) (uri : String) (work_dir : String) :
    Except PTError CreatedIndexer :=
  match parse_uri uri with
  | .error e => .error e
  | .ok (scheme, filename, hash_algorithm) =>
    if scheme ∉ registry then
      .error (.valueError ("Unsupported URI scheme: " ++ scheme))
    else if filename.data.contains '/' ∨ filename.data.contains '\\' then
      .error (.valueError ("URI should only contain filename without path: " ++ filename))
    else if hash_algorithm ∉ ALGORITHMS then
      .error (.valueError ("Unsupported hash algorithm: " ++ hash_algorithm ++
        ". Supported algorithms: " ++ String.intercalate ", " ALGORITHMS))
    else
      .ok ⟨scheme, work_dir ++ "/" ++ filename, hash_algorithm⟩

/-! ### HashLibHasher (src/core/indexer/hasher.py)

`calculate` opens the file, reads it in 4096-byte blocks, feeds each block
into the algorithm's accumulator, and returns `hexdigest()`.  A `hashlib`
algorithm is modelled by the pure function it computes on the full byte
stream (hashlib guarantees incremental `update` is equivalent to hashing
the concatenation) together with its documented output shape: a
fixed-length sequence of bytes, rendered by `hexdigest` in lowercase hex. -/

/-- A byte is a natural number below 256. -/
abbrev Byte := Nat

/-- Model of one `hashlib` algorithm (`md5`/`sha1`/`sha256`/`sha512`):
the raw digest as a pure function of the full input stream, with the
documented guarantees that the digest has a fixed length and consists of
bytes. -/
structure HashAlgo where
  digestBytes : List Byte → List Byte
  digest_len : Nat
  digest_length : ∀ bs, (digestBytes bs).length = digest_len
  digest_byte : ∀ bs b, b ∈ digestBytes bs → b < 256

/-- The chunking performed by `iter(lambda: f.read(4096), b"")`: the file's
bytes split into successive blocks of 4096 (the last one shorter). -/
def chunks (bs : List Byte) : List (List Byte) :=
  if bs = [] then [] else bs.take 4096 :: chunks (bs.drop 4096)
termination_by bs.length
decreasing_by
  rename_i h
  have : 0 < bs.length := List.length_pos.mpr h
  simp only [List.length_drop]
  omega

/-- The hex digit characters `0..9a..f` used by `hexdigest`. -/
def hexDigit (n : Nat) : Char :=
  if n < 10 then Char.ofNat (48 + n) else Char.ofNat (87 + n)

/-- One byte rendered as two lowercase hex digits. -/
def byteHex (b : Byte) : List Char :=
  [hexDigit (b / 16), hexDigit (b % 16)]

/-- `hexdigest()` applied to raw digest bytes: lowercase hexadecimal. -/
def toHexLower (bs : List Byte) : String :=
  String.mk (bs.flatMap byteHex)

/-- A filesystem: contents (byte list) of the file at each path, `none`
when no file exists there. -/
abbrev FileSystem := AbsPath → Option (List Byte)

/-- `HashLibHasher.calculate`: opens the file (an `OSError` on a missing
file is modelled as an error), folds `update` over the 4096-byte blocks —
so the accumulator conceptually receives the concatenation of the blocks —
and returns `hexdigest()`. -/
def HashLibHasher.calculate (a : HashAlgo) (fs : FileSystem) (file_path : AbsPath) :
    Except PTError String :=
  match fs file_path with
  | none => .error (.valueError "No such file or directory")
  | some content =>
    let stream := (chunks content).foldl (fun s block => s ++ block) []
    .ok (toHexLower (a.digestBytes stream))

/-- A character is a lowercase hexadecimal digit. -/
def isHexLowerChar (c : Char) : Bool :=
  c.isDigit || (97 ≤ c.toNat && c.toNat ≤ 102)

/-! ### Store lemmas -/

theorem storeLookup_append (l₁ l₂ : Store) (k : String) :
    storeLookup (l₁ ++ l₂) k =
      match storeLookup l₁ k with
      | some v => some v
      | none => storeLookup l₂ k := by
  induction l₁ with
  | nil => simp [storeLookup]
  | cons a t ih =>
    obtain ⟨k', v'⟩ := a
    by_cases h : k' = k <;> simp [storeLookup, h, ih]

theorem storeLookup_del_self (db : Store) (k : String) :
    storeLookup (storeDel db k) k = none := by
  induction db with
  | nil => simp [storeDel, storeLookup]
  | cons a t ih =>
    obtain ⟨k', v'⟩ := a
    by_cases h : k' = k <;> simp [storeDel, storeLookup, h, ih]

theorem storeLookup_del_ne (db : Store) (k k' : String) (h : k' ≠ k) :
    storeLookup (storeDel db k) k' = storeLookup db k' := by
  induction db with
  | nil => simp [storeDel]
  | cons a t ih =>
    obtain ⟨ka, va⟩ := a
    by_cases hk : ka = k
    · rw [storeDel, if_pos hk, ih, storeLookup, if_neg (fun hh : ka = k' => h (hh ▸ hk))]
    · by_cases hk' : ka = k' <;> simp [storeDel, storeLookup, hk, hk', ih, h]

theorem storeLookup_set_self (db : Store) (k v : String) :
    storeLookup (storeSet db k v) k = some v := by
  rw [storeSet, storeLookup_append, storeLookup_del_self]
  simp [storeLookup]

theorem storeLookup_set_ne (db : Store) (k v k' : String) (h : k' ≠ k) :
    storeLookup (storeSet db k v) k' = storeLookup db k' := by
  rw [storeSet, storeLookup_append, storeLookup_del_ne db k k' h]
  cases hl : storeLookup db k' with
  | some w => rfl
  | none =>
    simp only [storeLookup]
    rw [if_neg (fun hh => h hh.symm)]

theorem storeMem_set_self (db : Store) (k v : String) :
    storeMem (storeSet db k v) k = true := by
  simp [storeMem, storeLookup_set_self]

theorem storeMem_del_self (db : Store) (k : String) :
    storeMem (storeDel db k) k = false := by
  simp [storeMem, storeLookup_del_self]

/-! ### listAux lemmas -/

theorem listAux_none (db : Store) (acc : List (String × String)) :
    DBMIndexer.listAux db none acc = acc ++ db := by
  induction db generalizing acc with
  | nil => simp [DBMIndexer.listAux]
  | cons kv rest ih => simp [DBMIndexer.listAux, ih]

theorem listAux_some_of_lt (db : Store) (acc : List (String × String)) (m : Nat)
    (h : acc.length < m) :
    DBMIndexer.listAux db (some m) acc = acc ++ db.take (m - acc.length) := by
  induction db generalizing acc with
  | nil => simp [DBMIndexer.listAux]
  | cons kv rest ih =>
    simp only [DBMIndexer.listAux]
    by_cases hstop : (acc ++ [kv]).length ≥ m
    · have hm : m - acc.length = 1 := by
        simp only [List.length_append, List.length_cons, List.length_nil] at hstop
        omega
      rw [if_pos hstop, hm, List.take_succ_cons, List.take_zero]
    · have hstop' : ¬ acc.length + 1 ≥ m := by simpa using hstop
      have hlt : (acc ++ [kv]).length < m := by simp; omega
      obtain ⟨j, hj⟩ : ∃ j, m - acc.length = j + 1 := ⟨m - acc.length - 1, by omega⟩
      have hj' : m - (acc ++ [kv]).length = j := by
        simp only [List.length_append, List.length_cons, List.length_nil]
        omega
      rw [if_neg hstop, ih (acc ++ [kv]) hlt, hj', hj, List.take_succ_cons]
      simp

theorem listAux_some_zero (db : Store) :
    DBMIndexer.listAux db (some 0) [] = db.take 1 := by
  cases db with
  | nil => simp [DBMIndexer.listAux]
  | cons kv rest => simp [DBMIndexer.listAux]

/-! ### Hasher lemmas -/

theorem foldl_append_eq_flatten {α : Type} (l : List (List α)) (acc : List α) :
    l.foldl (fun s block => s ++ block) acc = acc ++ l.flatten := by
  induction l generalizing acc with
  | nil => simp
  | cons b t ih => simp [ih]

theorem chunks_flatten (bs : List Byte) : (chunks bs).flatten = bs := by
  unfold chunks
  split
  · simp [*]
  · rename_i h
    have ih := chunks_flatten (bs.drop 4096)
    simp [ih]
termination_by bs.length
decreasing_by
  rename_i h
  have : 0 < bs.length := List.length_pos.mpr h
  simp only [List.length_drop]
  omega

theorem isHexLowerChar_hexDigit (n : Nat) (h : n < 16) :
    isHexLowerChar (hexDigit n) = true := by
  interval_cases n <;> decide

theorem byteHex_hex (b : Nat) (h : b < 256) :
    ∀ c ∈ byteHex b, isHexLowerChar c = true := by
  intro c hc
  have h1 : b / 16 < 16 := by omega
  have h2 : b % 16 < 16 := by omega
  simp only [byteHex, List.mem_cons, List.not_mem_nil, or_false] at hc
  rcases hc with rfl | rfl
  · exact isHexLowerChar_hexDigit _ h1
  · exact isHexLowerChar_hexDigit _ h2

theorem hexChars_length (bs : List Byte) : (bs.flatMap byteHex).length = 2 * bs.length := by
  induction bs with
  | nil => rfl
  | cons b t ih =>
    have hc : (b :: t).flatMap byteHex = byteHex b ++ t.flatMap byteHex := rfl
    rw [hc, List.length_append, ih]
    simp only [byteHex, List.length_cons, List.length_nil]
    omega

/-! ### Indexer helper lemmas -/

theorem add_with_hash_under (idx : DBMIndexer) (db : Store) (p : AbsPath) (d : String)
    (hopen : idx.db = some db) (hunder : idx.base_dir.isPrefixOf p = true) :
    idx.add_with_hash p d =
      .ok { idx with db := some (storeSet db d (pathStr (p.drop idx.base_dir.length))) } := by
  simp [DBMIndexer.add_with_hash, hopen, DBMIndexer.get_relative_path, relativeTo, hunder]

theorem add_with_hash_outside (idx : DBMIndexer) (db : Store) (p : AbsPath) (d : String)
    (hopen : idx.db = some db) (houtside : idx.base_dir.isPrefixOf p = false) :
    idx.add_with_hash p d =
      .error (.valueError (pathStr p ++ " is not in the subpath of " ++ pathStr idx.base_dir)) := by
  simp [DBMIndexer.add_with_hash, hopen, DBMIndexer.get_relative_path, relativeTo, houtside]

/-- A run of successive `add_if_absent` calls, each computing its own
digest, propagating the first failure (as the Python `for` loop of a
caller would). -/
def addIfAbsentSeq (idx : DBMIndexer) :
    List AbsPath → Except PTError (List (Bool × String)) × DBMIndexer
  | [] => (.ok [], idx)
  | p :: ps =>
    match DBMIndexer.add_if_absent idx p none with
    | (.error e, idx') => (.error e, idx')
    | (.ok r, idx') =>
      match addIfAbsentSeq idx' ps with
      | (.error e, idx'') => (.error e, idx'')
      | (.ok rs, idx'') => (.ok (r :: rs), idx'')

theorem addIfAbsentSeq_all_dup (idx : DBMIndexer) (db : Store) (d : String) (ps : List AbsPath)
    (hopen : idx.db = some db) (hpresent : storeMem db d = true)
    (hhash : ∀ q ∈ ps, idx.hasher q = d) :
    addIfAbsentSeq idx ps = (.ok (ps.map fun _ => (false, d)), idx) := by
  induction ps with
  | nil => simp [addIfAbsentSeq]
  | cons q qs ih =>
    have hq : idx.hasher q = d := hhash q (by simp)
    have ihq := ih (fun r hr => hhash r (by simp [hr]))
    simp [addIfAbsentSeq, DBMIndexer.add_if_absent, hopen, hq, hpresent, ihq]

/-- Substring occurrence: the pattern occurs somewhere in the string.
Used to state that an error message mentions a scheme token. -/
def strContains (s pat : String) : Bool :=
  (splitFirst pat.data s.data).isSome

/-! ### Claim theorems -/

/-- Claim C1: for every sequence of `add_if_absent` calls on an open index
presenting files with the same digest (the digest not yet recorded, the
first file lying under the base directory), exactly the first call returns
`(true, digest)` and records the digest against its file's relative path;
every later call returns `(false, digest)` and leaves storage unmodified,
so the path recorded by the first call persists. -/
theorem addIfAbsent_first_writer_wins
    (idx : DBMIndexer) (db : Store) (d : String) (p : AbsPath) (ps : List AbsPath)
    (hopen : idx.db = some db)
    (habsent : storeMem db d = false)
    (hhash : ∀ q ∈ p :: ps, idx.hasher q = d)
    (hunder : idx.base_dir.isPrefixOf p = true) :
    addIfAbsentSeq idx (p :: ps) =
      (.ok ((true, d) :: ps.map fun _ => (false, d)),
        { idx with db := some (storeSet db d (pathStr (p.drop idx.base_dir.length))) }) ∧
    storeLookup (storeSet db d (pathStr (p.drop idx.base_dir.length))) d =
      some (pathStr (p.drop idx.base_dir.length)) := by
  have hp : idx.hasher p = d := hhash p (by simp)
  have hadd := add_with_hash_under idx db p d hopen hunder
  have hfirst : DBMIndexer.add_if_absent idx p none =
      (.ok (true, d),
        { idx with db := some (storeSet db d (pathStr (p.drop idx.base_dir.length))) }) := by
    simp [DBMIndexer.add_if_absent, hopen, hp, habsent, hadd]
  have hrest := addIfAbsentSeq_all_dup
      { idx with db := some (storeSet db d (pathStr (p.drop idx.base_dir.length))) }
      (storeSet db d (pathStr (p.drop idx.base_dir.length))) d ps rfl
      (storeMem_set_self db d (pathStr (p.drop idx.base_dir.length)))
      (fun q hq => hhash q (by simp [hq]))
  exact ⟨by simp [addIfAbsentSeq, hfirst, hrest],
    storeLookup_set_self db d (pathStr (p.drop idx.base_dir.length))⟩

theorem addIfAbsent_first_writer_wins_witness :
    addIfAbsentSeq ⟨["work", "idx.db"], fun _ => "d1", some []⟩
        [["work", "a.jpg"], ["work", "b.jpg"]] =
      (.ok [(true, "d1"), (false, "d1")],
        ⟨["work", "idx.db"], fun _ => "d1", some [("d1", "a.jpg")]⟩) ∧
    storeLookup [("d1", "a.jpg")] "d1" = some "a.jpg" :=
  addIfAbsent_first_writer_wins ⟨["work", "idx.db"], fun _ => "d1", some []⟩ [] "d1"
    ["work", "a.jpg"] [["work", "b.jpg"]] rfl rfl (fun _ _ => rfl) rfl

/-- Claim C2 (amended): on an open index, `get`/`exists`/`remove` with
neither key fail with the argument `ValueError` and leave storage
untouched; with only `file_path` they behave exactly as the digest form on
the file's digest; with BOTH keys supplied the call does not fail — the
supplied `file_hash` is used and the path is ignored (the code only
rejects the neither case). -/
theorem lookupKey_contract (idx : DBMIndexer) (db : Store) (p : AbsPath) (h : String)
    (hopen : idx.db = some db) :
    (idx.get none none = .error (.valueError "Either file_path or file_hash must be provided") ∧
     idx.existsEntry none none =
       .error (.valueError "Either file_path or file_hash must be provided") ∧
     idx.remove none none =
       (.error (.valueError "Either file_path or file_hash must be provided"), idx)) ∧
    (idx.get (some p) none = idx.get none (some (idx.hasher p)) ∧
     idx.existsEntry (some p) none = idx.existsEntry none (some (idx.hasher p)) ∧
     idx.remove (some p) none = idx.remove none (some (idx.hasher p))) ∧
    (idx.get (some p) (some h) = idx.get none (some h) ∧
     idx.existsEntry (some p) (some h) = idx.existsEntry none (some h) ∧
     idx.remove (some p) (some h) = idx.remove none (some h)) := by
  simp [DBMIndexer.get, DBMIndexer.existsEntry, DBMIndexer.remove, DBMIndexer.get_hash, hopen]

/-- Claim C2 counterexample: with both `file_path` and `file_hash`
supplied, `get` succeeds (the hash is used, the path ignored) instead of
failing with an argument error as the claim states. -/
theorem lookupKey_both_supplied_succeeds :
    DBMIndexer.get ⟨["work", "idx.db"], fun _ => "hp", some [("hd", "a.jpg")]⟩
      (some ["work", "f.jpg"]) (some "hd") = .ok (some "a.jpg") := rfl

theorem lookupKey_contract_witness :
    (DBMIndexer.get ⟨["work", "idx.db"], fun _ => "hq", some [("hd", "a.jpg")]⟩ none none =
       .error (.valueError "Either file_path or file_hash must be provided") ∧
     DBMIndexer.existsEntry ⟨["work", "idx.db"], fun _ => "hq", some [("hd", "a.jpg")]⟩ none none =
       .error (.valueError "Either file_path or file_hash must be provided") ∧
     DBMIndexer.remove ⟨["work", "idx.db"], fun _ => "hq", some [("hd", "a.jpg")]⟩ none none =
       (.error (.valueError "Either file_path or file_hash must be provided"),
        ⟨["work", "idx.db"], fun _ => "hq", some [("hd", "a.jpg")]⟩)) ∧
    (DBMIndexer.get ⟨["work", "idx.db"], fun _ => "hq", some [("hd", "a.jpg")]⟩
        (some ["work", "f.jpg"]) none =
       DBMIndexer.get ⟨["work", "idx.db"], fun _ => "hq", some [("hd", "a.jpg")]⟩
        none (some "hq") ∧
     DBMIndexer.existsEntry ⟨["work", "idx.db"], fun _ => "hq", some [("hd", "a.jpg")]⟩
        (some ["work", "f.jpg"]) none =
       DBMIndexer.existsEntry ⟨["work", "idx.db"], fun _ => "hq", some [("hd", "a.jpg")]⟩
        none (some "hq") ∧
     DBMIndexer.remove ⟨["work", "idx.db"], fun _ => "hq", some [("hd", "a.jpg")]⟩
        (some ["work", "f.jpg"]) none =
       DBMIndexer.remove ⟨["work", "idx.db"], fun _ => "hq", some [("hd", "a.jpg")]⟩
        none (some "hq")) ∧
    (DBMIndexer.get ⟨["work", "idx.db"], fun _ => "hq", some [("hd", "a.jpg")]⟩
        (some ["work", "f.jpg"]) (some "hd") =
       DBMIndexer.get ⟨["work", "idx.db"], fun _ => "hq", some [("hd", "a.jpg")]⟩
        none (some "hd") ∧
     DBMIndexer.existsEntry ⟨["work", "idx.db"], fun _ => "hq", some [("hd", "a.jpg")]⟩
        (some ["work", "f.jpg"]) (some "hd") =
       DBMIndexer.existsEntry ⟨["work", "idx.db"], fun _ => "hq", some [("hd", "a.jpg")]⟩
        none (some "hd") ∧
     DBMIndexer.remove ⟨["work", "idx.db"], fun _ => "hq", some [("hd", "a.jpg")]⟩
        (some ["work", "f.jpg"]) (some "hd") =
       DBMIndexer.remove ⟨["work", "idx.db"], fun _ => "hq", some [("hd", "a.jpg")]⟩
        none (some "hd")) :=
  lookupKey_contract ⟨["work", "idx.db"], fun _ => "hq", some [("hd", "a.jpg")]⟩
    [("hd", "a.jpg")] ["work", "f.jpg"] "hd" rfl

/-- Claim C3 (amended): `add_if_absent` on an open index with a file
outside the base directory fails with the path-resolution `ValueError` and
leaves the indexer unchanged — but only when the presented digest is not
yet stored; when the digest is already stored the call returns
`(false, digest)` without error (the membership check short-circuits the
path resolution).  In both cases storage is unmodified. -/
theorem addIfAbsent_outside_base (idx : DBMIndexer) (db : Store) (p : AbsPath)
    (fh : Option String)
    (hopen : idx.db = some db)
    (houtside : idx.base_dir.isPrefixOf p = false) :
    (storeMem db (fh.getD (idx.hasher p)) = false →
      idx.add_if_absent p fh =
        (.error (.valueError
          (pathStr p ++ " is not in the subpath of " ++ pathStr idx.base_dir)), idx)) ∧
    (storeMem db (fh.getD (idx.hasher p)) = true →
      idx.add_if_absent p fh = (.ok (false, fh.getD (idx.hasher p)), idx)) := by
  have hout := add_with_hash_outside idx db p (fh.getD (idx.hasher p)) hopen houtside
  constructor
  · intro habs
    simp [DBMIndexer.add_if_absent, hopen, habs, hout]
  · intro hpres
    simp [DBMIndexer.add_if_absent, hopen, hpres]

/-- Claim C3 counterexample: with the digest already stored,
`add_if_absent` on a file OUTSIDE the base directory returns
`(False, digest)` instead of failing with a path-resolution error. -/
theorem addIfAbsent_outside_present_digest_no_error :
    DBMIndexer.add_if_absent ⟨["work", "idx.db"], fun _ => "hd", some [("hd", "a.jpg")]⟩
        ["elsewhere", "f.jpg"] none =
      (.ok (false, "hd"), ⟨["work", "idx.db"], fun _ => "hd", some [("hd", "a.jpg")]⟩) := rfl

theorem addIfAbsent_outside_base_witness :
    (storeMem [] "hd" = false →
      DBMIndexer.add_if_absent ⟨["work", "idx.db"], fun _ => "hd", some []⟩
          ["elsewhere", "f.jpg"] none =
        (.error (.valueError "elsewhere/f.jpg is not in the subpath of work"),
         ⟨["work", "idx.db"], fun _ => "hd", some []⟩)) ∧
    (storeMem [] "hd" = true →
      DBMIndexer.add_if_absent ⟨["work", "idx.db"], fun _ => "hd", some []⟩
          ["elsewhere", "f.jpg"] none =
        (.ok (false, "hd"), ⟨["work", "idx.db"], fun _ => "hd", some []⟩)) :=
  addIfAbsent_outside_base ⟨["work", "idx.db"], fun _ => "hd", some []⟩ []
    ["elsewhere", "f.jpg"] none rfl rfl

/-- Claim C4: `add(path, digest)` on an open index followed by
`get(file_hash = digest)` — against any later store whose entry for that
digest is unchanged — returns the relative path derived from `path` at the
time of the `add`. -/
theorem add_get_roundtrip (idx : DBMIndexer) (db : Store) (p : AbsPath) (d : String)
    (hopen : idx.db = some db) (hunder : idx.base_dir.isPrefixOf p = true) :
    idx.add p (some d) =
      (.ok d, { idx with db := some (storeSet db d (pathStr (p.drop idx.base_dir.length))) }) ∧
    ∀ db₂ : Store,
      storeLookup db₂ d = storeLookup (storeSet db d (pathStr (p.drop idx.base_dir.length))) d →
      DBMIndexer.get { idx with db := some db₂ } none (some d) =
        .ok (some (pathStr (p.drop idx.base_dir.length))) := by
  have hadd := add_with_hash_under idx db p d hopen hunder
  constructor
  · simp [DBMIndexer.add, hopen, hadd]
  · intro db₂ hdb₂
    simp [DBMIndexer.get, DBMIndexer.get_hash, hdb₂, storeLookup_set_self]

theorem add_get_roundtrip_witness :
    DBMIndexer.add ⟨["work", "idx.db"], fun _ => "d1", some []⟩ ["work", "a.jpg"] (some "d1") =
      (.ok "d1", ⟨["work", "idx.db"], fun _ => "d1", some [("d1", "a.jpg")]⟩) ∧
    DBMIndexer.get ⟨["work", "idx.db"], fun _ => "d1", some [("d1", "a.jpg"), ("e2", "b.jpg")]⟩
        none (some "d1") = .ok (some "a.jpg") :=
  ⟨(add_get_roundtrip ⟨["work", "idx.db"], fun _ => "d1", some []⟩ [] ["work", "a.jpg"] "d1"
      rfl rfl).1,
   (add_get_roundtrip ⟨["work", "idx.db"], fun _ => "d1", some []⟩ [] ["work", "a.jpg"] "d1"
      rfl rfl).2 [("d1", "a.jpg"), ("e2", "b.jpg")] rfl⟩

/-- Claim C5 (amended): the relative path recorded by `add` and
`add_if_absent` is computed LEXICALLY — `Path(file_path).relative_to(base_dir)`
with no `resolve()` — because `DBMIndexer` overrides the base class's
resolving `_get_relative_path`; `.` and `..` components and symlinks are
not normalized. -/
theorem recorded_path_lexical (idx : DBMIndexer) (db : Store) (p : AbsPath) (d : String)
    (hopen : idx.db = some db) (hunder : idx.base_dir.isPrefixOf p = true) :
    (idx.add p (some d)).2.db =
      some (storeSet db d (pathStr (p.drop idx.base_dir.length))) ∧
    (storeMem db d = false →
      (idx.add_if_absent p (some d)).2.db =
        some (storeSet db d (pathStr (p.drop idx.base_dir.length)))) := by
  have hadd := add_with_hash_under idx db p d hopen hunder
  constructor
  · simp [DBMIndexer.add, hopen, hadd]
  · intro habs
    simp [DBMIndexer.add_if_absent, hopen, habs, hadd]

/-- Claim C5 counterexample: adding `/work/sub/../f.jpg` to an index based
at `/work` records the unresolved path `sub/../f.jpg`, whereas the
claim's resolve-then-relativize derivation (the base class's, as the spec
describes) yields `f.jpg`. -/
theorem recorded_path_not_resolved :
    (DBMIndexer.add ⟨["work", "idx.db"], fun _ => "h1", some []⟩
        ["work", "sub", "..", "f.jpg"] (some "h1")).2.db = some [("h1", "sub/../f.jpg")] ∧
    BaseIndexer.get_relative_path ["work", "idx.db"] ["work", "sub", "..", "f.jpg"] =
      .ok "f.jpg" ∧
    ("sub/../f.jpg" : String) ≠ "f.jpg" := by
  refine ⟨rfl, rfl, by decide⟩

theorem recorded_path_lexical_witness :
    (DBMIndexer.add ⟨["work", "idx.db"], fun _ => "h1", some []⟩
        ["work", "sub", "..", "f.jpg"] (some "h1")).2.db = some [("h1", "sub/../f.jpg")] ∧
    (storeMem [] "h1" = false →
      (DBMIndexer.add_if_absent ⟨["work", "idx.db"], fun _ => "h1", some []⟩
          ["work", "sub", "..", "f.jpg"] (some "h1")).2.db = some [("h1", "sub/../f.jpg")]) :=
  recorded_path_lexical ⟨["work", "idx.db"], fun _ => "h1", some []⟩ []
    ["work", "sub", "..", "f.jpg"] "h1" rfl rfl

/-- Claim C6 (amended): constructing an index from a URI whose scheme
token is not registered fails with a configuration `ValueError` that names
the unsupported scheme — the message does NOT enumerate the known scheme
tokens (only the cleanup-by-URI entry point enumerates them) — and no
indexer instance is created. -/
theorem create_unregistered_scheme (registry : List String) (uri work_dir : String)
    (scheme filename alg : String)
    (hparse : parse_uri uri = .ok (scheme, filename, alg))
    (hunreg : scheme ∉ registry) :
    BaseIndexer.create registry uri work_dir =
      .error (.valueError ("Unsupported URI scheme: " ++ scheme)) := by
  simp [BaseIndexer.create, hparse, hunreg]

/-- Claim C6 counterexample: `create` with the unregistered scheme `xyz`
raises "Unsupported URI scheme: xyz", a message in which the registered
token `dbm` does not occur — the claim's "message enumerates the known
scheme tokens" fails. -/
theorem create_message_lacks_scheme_enumeration :
    BaseIndexer.create registeredSchemes "xyz://hash.index" "/data" =
      .error (.valueError "Unsupported URI scheme: xyz") ∧
    strContains "Unsupported URI scheme: xyz" "dbm" = false := by
  refine ⟨rfl, rfl⟩

theorem create_unregistered_scheme_witness :
    BaseIndexer.create registeredSchemes "xyz://hash.index" "/data" =
      .error (.valueError "Unsupported URI scheme: xyz") :=
  create_unregistered_scheme registeredSchemes "xyz://hash.index" "/data"
    "xyz" "hash.index" "sha256" rfl (by decide)

/-- Claim C7 (amended): on an open index whose store is nonempty, `list`
with a positive limit `m` returns the first `m` entries (so at most `m`,
each present in the store), and `list` with no limit returns every stored
entry; but `list` with limit `0` returns the first entry (the stop test
runs after the append), and on an empty store `list` raises the
"not open" `RuntimeError` (an empty dbm handle is falsy). -/
theorem list_limit_contract (idx : DBMIndexer) (db : Store) (hopen : idx.db = some db)
    (hne : db ≠ []) :
    idx.list none = .ok db ∧
    (∀ m : Nat, 1 ≤ m →
      idx.list (some m) = .ok (db.take m) ∧
      (db.take m).length ≤ m ∧ ∀ e ∈ db.take m, e ∈ db) ∧
    idx.list (some 0) = .ok (db.take 1) := by
  have hne' : db.isEmpty = false := by simpa [List.isEmpty_iff] using hne
  refine ⟨?_, ?_, ?_⟩
  · simp [DBMIndexer.list, hopen, hne', listAux_none]
  · intro m hm
    have htake := listAux_some_of_lt db [] m (by simpa using hm)
    simp only [List.nil_append, Nat.sub_zero, List.length_nil] at htake
    refine ⟨?_, ?_, fun e he => List.take_subset _ _ he⟩
    · simp [DBMIndexer.list, hopen, hne', htake]
    · rw [List.length_take]
      exact Nat.min_le_left _ _
  · simp [DBMIndexer.list, hopen, hne', listAux_some_zero]

/-- Claim C7 counterexample: `list` with the non-negative limit `0` on a
one-entry store returns one entry, not at most `0`; and `list` with no
limit on an empty open store raises instead of returning every (zero)
stored entry. -/
theorem list_zero_and_empty_diverge :
    DBMIndexer.list ⟨["work", "idx.db"], fun _ => "h1", some [("d1", "a.jpg")]⟩ (some 0) =
      .ok [("d1", "a.jpg")] ∧
    DBMIndexer.list ⟨["work", "idx.db"], fun _ => "h1", some []⟩ none =
      .error (.runtimeError "Database is not open") := ⟨rfl, rfl⟩

theorem list_limit_contract_witness :
    DBMIndexer.list ⟨["work", "idx.db"], fun _ => "h1", some [("d1", "a"), ("d2", "b")]⟩ none =
      .ok [("d1", "a"), ("d2", "b")] ∧
    DBMIndexer.list ⟨["work", "idx.db"], fun _ => "h1", some [("d1", "a"), ("d2", "b")]⟩
        (some 1) = .ok [("d1", "a")] ∧
    DBMIndexer.list ⟨["work", "idx.db"], fun _ => "h1", some [("d1", "a"), ("d2", "b")]⟩
        (some 0) = .ok [("d1", "a")] :=
  ⟨(list_limit_contract ⟨["work", "idx.db"], fun _ => "h1", some [("d1", "a"), ("d2", "b")]⟩
      [("d1", "a"), ("d2", "b")] rfl (by decide)).1,
   ((list_limit_contract ⟨["work", "idx.db"], fun _ => "h1", some [("d1", "a"), ("d2", "b")]⟩
      [("d1", "a"), ("d2", "b")] rfl (by decide)).2.1 1 (by decide)).1,
   (list_limit_contract ⟨["work", "idx.db"], fun _ => "h1", some [("d1", "a"), ("d2", "b")]⟩
      [("d1", "a"), ("d2", "b")] rfl (by decide)).2.2⟩

/-- Claim C8: removing a stored digest twice in succession: the first
`remove` returns the digest and deletes the entry, the second returns
`none`, and the store ends with no entry for that digest. -/
theorem remove_twice_idempotent (idx : DBMIndexer) (db : Store) (d : String)
    (hopen : idx.db = some db) (hpresent : storeMem db d = true) :
    idx.remove none (some d) = (.ok (some d), { idx with db := some (storeDel db d) }) ∧
    DBMIndexer.remove { idx with db := some (storeDel db d) } none (some d) =
      (.ok none, { idx with db := some (storeDel db d) }) ∧
    storeLookup (storeDel db d) d = none := by
  refine ⟨?_, ?_, storeLookup_del_self db d⟩
  · simp [DBMIndexer.remove, DBMIndexer.get_hash, hopen, hpresent]
  · simp [DBMIndexer.remove, DBMIndexer.get_hash, storeMem_del_self]

theorem remove_twice_idempotent_witness :
    DBMIndexer.remove ⟨["work", "idx.db"], fun _ => "h1", some [("d1", "a.jpg")]⟩
        none (some "d1") =
      (.ok (some "d1"), ⟨["work", "idx.db"], fun _ => "h1", some []⟩) ∧
    DBMIndexer.remove ⟨["work", "idx.db"], fun _ => "h1", some []⟩ none (some "d1") =
      (.ok none, ⟨["work", "idx.db"], fun _ => "h1", some []⟩) ∧
    storeLookup [] "d1" = none :=
  remove_twice_idempotent ⟨["work", "idx.db"], fun _ => "h1", some [("d1", "a.jpg")]⟩
    [("d1", "a.jpg")] "d1" rfl rfl

/-- Claim C9: the digest is a pure function of the file's byte content and
the configured algorithm — two files with identical bytes yield identical
output regardless of their names or locations — and the output is a
lowercase hexadecimal string of the algorithm's fixed digest length. -/
theorem calculate_content_deterministic_hex
    (a : HashAlgo) (fs : FileSystem) (p₁ p₂ : AbsPath) (c : List Byte)
    (h₁ : fs p₁ = some c) (h₂ : fs p₂ = some c) :
    HashLibHasher.calculate a fs p₁ = HashLibHasher.calculate a fs p₂ ∧
    HashLibHasher.calculate a fs p₁ = .ok (toHexLower (a.digestBytes c)) ∧
    (toHexLower (a.digestBytes c)).length = 2 * a.digest_len ∧
    ∀ ch ∈ (toHexLower (a.digestBytes c)).data, isHexLowerChar ch = true := by
  have hstream : (chunks c).foldl (fun s block => s ++ block) [] = c := by
    rw [foldl_append_eq_flatten, chunks_flatten, List.nil_append]
  have hcalc : ∀ p, fs p = some c →
      HashLibHasher.calculate a fs p = .ok (toHexLower (a.digestBytes c)) := by
    intro p hp
    simp [HashLibHasher.calculate, hp, hstream]
  refine ⟨(hcalc p₁ h₁).trans (hcalc p₂ h₂).symm, hcalc p₁ h₁, ?_, ?_⟩
  · have hdata : (toHexLower (a.digestBytes c)).length =
        ((a.digestBytes c).flatMap byteHex).length := rfl
    rw [hdata, hexChars_length, a.digest_length]
  · intro ch hch
    have hch' : ch ∈ (a.digestBytes c).flatMap byteHex := hch
    rw [List.mem_flatMap] at hch'
    obtain ⟨b, hb, hcb⟩ := hch'
    exact byteHex_hex b (a.digest_byte c b hb) ch hcb

/-- A one-byte toy algorithm used to instantiate the hasher theorem. -/
def unitHashAlgo : HashAlgo where
  digestBytes := fun _ => [0]
  digest_len := 1
  digest_length := fun _ => rfl
  digest_byte := by
    intro bs b hb
    have hb0 : b = 0 := by simpa using hb
    rw [hb0]
    norm_num

theorem calculate_content_deterministic_hex_witness :
    HashLibHasher.calculate unitHashAlgo (fun _ => some [1, 2]) ["pics", "a.bin"] =
      HashLibHasher.calculate unitHashAlgo (fun _ => some [1, 2]) ["other", "b.bin"] ∧
    HashLibHasher.calculate unitHashAlgo (fun _ => some [1, 2]) ["pics", "a.bin"] =
      .ok (toHexLower (unitHashAlgo.digestBytes [1, 2])) ∧
    (toHexLower (unitHashAlgo.digestBytes [1, 2])).length = 2 * unitHashAlgo.digest_len :=
  ⟨(calculate_content_deterministic_hex unitHashAlgo (fun _ => some [1, 2])
      ["pics", "a.bin"] ["other", "b.bin"] [1, 2] rfl rfl).1,
   (calculate_content_deterministic_hex unitHashAlgo (fun _ => some [1, 2])
      ["pics", "a.bin"] ["other", "b.bin"] [1, 2] rfl rfl).2.1,
   (calculate_content_deterministic_hex unitHashAlgo (fun _ => some [1, 2])
      ["pics", "a.bin"] ["other", "b.bin"] [1, 2] rfl rfl).2.2.1⟩

/-- Claim C10: when `file_hash` is supplied, `get`/`exists`/`remove` yield
the same result and the same resulting store for ANY hasher and ANY
`file_path` argument (supplied or not, existing or not): the file is never
read, only the supplied hash and the store contents matter. -/
theorem hash_key_ignores_file
    (dbp₁ dbp₂ : AbsPath) (hasher₁ hasher₂ : AbsPath → String)
    (fp₁ fp₂ : Option AbsPath) (db : Store) (d : String) :
    DBMIndexer.get ⟨dbp₁, hasher₁, some db⟩ fp₁ (some d) =
      DBMIndexer.get ⟨dbp₂, hasher₂, some db⟩ fp₂ (some d) ∧
    DBMIndexer.existsEntry ⟨dbp₁, hasher₁, some db⟩ fp₁ (some d) =
      DBMIndexer.existsEntry ⟨dbp₂, hasher₂, some db⟩ fp₂ (some d) ∧
    (DBMIndexer.remove ⟨dbp₁, hasher₁, some db⟩ fp₁ (some d)).1 =
      (DBMIndexer.remove ⟨dbp₂, hasher₂, some db⟩ fp₂ (some d)).1 ∧
    (DBMIndexer.remove ⟨dbp₁, hasher₁, some db⟩ fp₁ (some d)).2.db =
      (DBMIndexer.remove ⟨dbp₂, hasher₂, some db⟩ fp₂ (some d)).2.db := by
  by_cases h : storeMem db d = true <;>
    simp [DBMIndexer.get, DBMIndexer.existsEntry, DBMIndexer.remove, DBMIndexer.get_hash, h]

end PhotoToolkit
